import Mathlib

/-
  Verification development for the duplex-thermodynamics repository
  (calculate_duplex_thermodynamics.ipynb).

  Shallow embedding conventions:
  * Python strings are `List Char`; Python floats are `ℚ` (the arithmetic in
    the source is +, *, -, /, all exact on the inputs in play).
  * Python dict tables: the nearest-neighbor tables always carry the named
    scalar entries ("init", "init_A/T", "init_G/C", "init_oneG/C",
    "init_allA/T", "init_5T/A", "sym") plus dinucleotide-pair entries, so they
    are embedded as a structure `NNTable` with those fields plus an
    association list `pairs` for the pair keys (named keys never collide with
    the 3-to-5 character pair keys built by the loops, since pair keys always
    contain a slash at index 1 or 2).  Correction tables (internal mismatch,
    terminal mismatch, dangling end) are consulted only through pair-key
    lookups and are embedded as plain association lists (`PairTable`).
  * Python `raise ValueError(msg)` becomes `Except.error msg`.
  * A Python parameter with a default value (e.g. `temperature=310.15`)
    becomes an `Option` argument resolved with `Option.getD` against the
    literal default from the source.
-/

/-- Models Python `str.upper()` restricted to the ASCII alphabet the program
uses (`Char.toUpper` uppercases exactly the ASCII letters). -/
def upperL (s : List Char) : List Char := s.map Char.toUpper

/-- Models `Bio.Seq.Seq.complement()` from Biopython, the library function the
source calls, restricted to the characters in play: A<->T, C<->G, U -> A
(Biopython documents that any U is treated as a T when complementing), same on
lowercase letters, and every other character (such as the '.' gap marker) left
unchanged. -/
def complementChar (c : Char) : Char :=
  if c = 'A' then 'T'
  else if c = 'T' then 'A'
  else if c = 'C' then 'G'
  else if c = 'G' then 'C'
  else if c = 'U' then 'A'
  else if c = 'a' then 't'
  else if c = 't' then 'a'
  else if c = 'c' then 'g'
  else if c = 'g' then 'c'
  else if c = 'u' then 'a'
  else c

/-- Models `str(Seq(s).complement())` (direct complement, no reversal). -/
def complementL (s : List Char) : List Char := s.map complementChar

/-- Dinucleotide-pair portion of a parameter table: association list from
4-character pair keys such as "AA/TT" to (delta-H, delta-S). -/
abbrev PairTable := List (List Char × (ℚ × ℚ))

/-- A nearest-neighbor parameter table.  The named entries (present in every
nearest-neighbor table the program selects, e.g. DNA_NN5 in the source) are
fields; `init_AT`, `init_GC`, `init_oneGC`, `init_allAT`, `init_5TA` embed the
Python keys "init_A/T", "init_G/C", "init_oneG/C", "init_allA/T", "init_5T/A". -/
structure NNTable where
  init : ℚ × ℚ
  init_AT : ℚ × ℚ
  init_GC : ℚ × ℚ
  init_oneGC : ℚ × ℚ
  init_allAT : ℚ × ℚ
  init_5TA : ℚ × ℚ
  sym : ℚ × ℚ
  pairs : PairTable

/-- Source `initialize_thermodynamics(nn_table, seq, c_seq=None)` (notebook
cell 8), translated line by line.  `c_seq0 = none` models the Python default
`c_seq=None`; Python's `if not c_seq` is also true for the empty string, hence
the `isEmpty` test.  `seq.headD`/`getLastD` model `seq[0]`/`seq[-1]`, which the
program only evaluates on non-empty sequences. -/
def init_thermodynamics (nn_table : NNTable) (seq : List Char)
    (c_seq0 : Option (List Char)) : ℚ × ℚ :=
  let c_seq := match c_seq0 with
    | none => complementL seq
    | some l => if l.isEmpty then complementL seq else l
  let delta_h := nn_table.init.1
  let delta_s := nn_table.init.2
  let (delta_h, delta_s) :=
    if seq.count 'G' + seq.count 'C' = 0 then
      (delta_h + nn_table.init_allAT.1, delta_s + nn_table.init_allAT.2)
    else
      (delta_h + nn_table.init_oneGC.1, delta_s + nn_table.init_oneGC.2)
  let (delta_h, delta_s) :=
    if seq.head? = some 'T' then
      (delta_h + nn_table.init_5TA.1, delta_s + nn_table.init_5TA.2)
    else (delta_h, delta_s)
  let (delta_h, delta_s) :=
    if seq.getLast? = some 'A' then
      (delta_h + nn_table.init_5TA.1, delta_s + nn_table.init_5TA.2)
    else (delta_h, delta_s)
  let ends := [seq.headD ' ', seq.getLastD ' ']
  let nAT : ℚ := (ends.count 'A' + ends.count 'T' : ℕ)
  let nGC : ℚ := (ends.count 'G' + ends.count 'C' : ℕ)
  let (delta_h, delta_s) :=
    (delta_h + nn_table.init_AT.1 * nAT + nn_table.init_GC.1 * nGC,
     delta_s + nn_table.init_AT.2 * nAT + nn_table.init_GC.2 * nGC)
  if seq = c_seq.reverse then
    (delta_h + nn_table.sym.1, delta_s + nn_table.sym.2)
  else (delta_h, delta_s)

/-- Step 2 of the Initiation Corrector in isolation: the all-A/T versus
one-or-more-G/C initiation term, keyed on `seq`'s G and C counts. -/
def init_gc_term (nn_table : NNTable) (seq : List Char) : ℚ × ℚ :=
  if seq.count 'G' + seq.count 'C' = 0 then nn_table.init_allAT
  else nn_table.init_oneGC

/-- Step 3 of the Initiation Corrector in isolation: the 5-prime-T / 3-prime-A
terminal penalty, one copy of the same table entry per satisfied condition. -/
def init_5TA_term (nn_table : NNTable) (seq : List Char) : ℚ × ℚ :=
  (if seq.head? = some 'T' then nn_table.init_5TA else 0) +
    (if seq.getLast? = some 'A' then nn_table.init_5TA else 0)

/-- Step 4 of the Initiation Corrector in isolation: per-terminal-base A/T
versus G/C terms scaled by the count of matching terminal bases. -/
def init_terminal_term (nn_table : NNTable) (seq : List Char) : ℚ × ℚ :=
  let ends := [seq.headD ' ', seq.getLastD ' ']
  let nAT : ℚ := (ends.count 'A' + ends.count 'T' : ℕ)
  let nGC : ℚ := (ends.count 'G' + ends.count 'C' : ℕ)
  (nn_table.init_AT.1 * nAT + nn_table.init_GC.1 * nGC,
   nn_table.init_AT.2 * nAT + nn_table.init_GC.2 * nGC)

/-- Step 5 of the Initiation Corrector in isolation: the symmetry correction,
added exactly when `seq` equals the reverse of the (resolved) complementary
sequence. -/
def init_sym_term (nn_table : NNTable) (seq c_seq : List Char) : ℚ × ℚ :=
  if seq = c_seq.reverse then nn_table.sym else 0

/-- The complementary sequence the Initiation Corrector actually uses:
the supplied one when present and non-empty (Python `if not c_seq`),
otherwise the direct complement of `seq`. -/
def resolved_cseq (seq : List Char) (c_seq0 : Option (List Char)) : List Char :=
  match c_seq0 with
  | none => complementL seq
  | some l => if l.isEmpty then complementL seq else l

/-- One trial of the first (non-negative) scan of `determine_shift`: overlap
length `min(len(seq), len(comp) - s)`, skip if not positive, compare `seq`'s
prefix with `comp`'s substring starting at `s`. -/
def posShiftMatches (seq comp : List Char) (s : ℕ) : Bool :=
  let overlap_len := min seq.length (comp.length - s)
  decide (0 < overlap_len) &&
    decide (seq.take overlap_len = (comp.drop s).take overlap_len)

/-- One trial of the second (negative) scan of `determine_shift`: overlap
length `min(len(comp), len(seq) - s)`, skip if not positive, compare `seq`'s
substring starting at `s` with `comp`'s prefix. -/
def negShiftMatches (seq comp : List Char) (s : ℕ) : Bool :=
  let overlap_len := min comp.length (seq.length - s)
  decide (0 < overlap_len) &&
    decide ((seq.drop s).take overlap_len = comp.take overlap_len)

/-- Source `determine_shift(seq, c_seq)` (notebook cell 9): uppercase both
strands, complement `c_seq`, scan shifts `0 .. max(len(comp), len(seq)) - 1`
returning the first match, then shifts `1 .. len(seq) - 1` returning the
negated first match, else fail (`none` models the raised ValueError). -/
def determine_shift (seq0 c_seq0 : List Char) : Option Int :=
  let seq := upperL seq0
  let c_seq := upperL c_seq0
  let c_seq_comp := complementL c_seq
  match (List.range (max c_seq_comp.length seq.length)).find?
      (posShiftMatches seq c_seq_comp) with
  | some s => some (s : Int)
  | none =>
    match (List.range' 1 (seq.length - 1)).find?
        (negShiftMatches seq c_seq_comp) with
    | some s => some (-(s : Int))
    | none => none

/-- Python `nn_table.get(k, nn_table.get(k[::-1], (0, 0)))`: direct lookup,
then whole-key reversal, then the (0, 0) default. -/
def tableGetD (t : PairTable) (k : List Char) : ℚ × ℚ :=
  match t.lookup k with
  | some v => v
  | none =>
    match t.lookup k.reverse with
    | some v => v
    | none => (0, 0)

/-- The key `seq[i:i+2] + "/" + c_seq[i:i+2]` built by every stacking loop. -/
def nbrKey (seq c_seq : List Char) (i : ℕ) : List Char :=
  (seq.drop i).take 2 ++ '/' :: (c_seq.drop i).take 2

/-- The stacking loop of `calculate_matching` (and the unmodified loop of
`calculate_terminal_mismatch`): for each position, add the `tableGetD`
resolution of the neighbor key to the accumulator. -/
def nn_loop (t : PairTable) (seq c_seq : List Char) :
    List ℕ → ℚ × ℚ → ℚ × ℚ
  | [], acc => acc
  | i :: rest, acc =>
    let v := tableGetD t (nbrKey seq c_seq i)
    nn_loop t seq c_seq rest (acc.1 + v.1, acc.2 + v.2)

/-- Source `calculate_matching(seq, c_seq, nn_table)` (notebook cell 11):
seed with the initiation corrections, then run the stacking loop over
`range(len(seq) - 1)`. -/
def calculate_matching (seq c_seq : List Char) (nn_table : NNTable) : ℚ × ℚ :=
  nn_loop nn_table.pairs seq c_seq (List.range (seq.length - 1))
    (init_thermodynamics nn_table seq none)

/-- The four-lookup resolution chain of `calculate_internal_mismatch`, in
source order: mismatch table direct, mismatch table reversed, base table
direct, base table reversed. -/
def imm_resolve (nn_table : NNTable) (imm_table : PairTable)
    (k : List Char) : Option (ℚ × ℚ) :=
  match imm_table.lookup k with
  | some v => some v
  | none =>
    match imm_table.lookup k.reverse with
    | some v => some v
    | none =>
      match nn_table.pairs.lookup k with
      | some v => some v
      | none => nn_table.pairs.lookup k.reverse

/-- The loop of `calculate_internal_mismatch`: resolve each neighbor key by
the four-lookup chain, raising (error naming the key) when all four miss.
The source message is `No data found for '<key>'.` -/
def imm_loop (nn_table : NNTable) (imm_table : PairTable)
    (seq c_seq : List Char) : List ℕ → ℚ × ℚ → Except String (ℚ × ℚ)
  | [], acc => .ok acc
  | i :: rest, acc =>
    match imm_resolve nn_table imm_table (nbrKey seq c_seq i) with
    | some v =>
      imm_loop nn_table imm_table seq c_seq rest (acc.1 + v.1, acc.2 + v.2)
    | none =>
      .error ("No data found for " ++ String.mk (nbrKey seq c_seq i) ++ ".")

/-- Source `calculate_internal_mismatch(seq, c_seq, nn_table, imm_table)`
(notebook cell 12). -/
def calculate_internal_mismatch (seq c_seq : List Char) (nn_table : NNTable)
    (imm_table : PairTable) : Except String (ℚ × ℚ) :=
  imm_loop nn_table imm_table seq c_seq (List.range (seq.length - 1))
    (init_thermodynamics nn_table seq none)

/-- Python `l[-2:]`: the final (at most) `n` characters. -/
def lastN (l : List Char) (n : ℕ) : List Char := l.drop (l.length - n)

/-- Source `calculate_terminal_mismatch(seq, c_seq, nn_table, tmm_table)`
(notebook cell 13): one-off 5-prime and 3-prime terminal corrections from the
terminal-mismatch table (with reverse fallback and (0,0) default), then the
full unmodified stacking sum. -/
def calculate_terminal_mismatch (seq c_seq : List Char) (nn_table : NNTable)
    (tmm_table : PairTable) : ℚ × ℚ :=
  let a := init_thermodynamics nn_table seq none
  let term5 := seq.take 2 ++ '/' :: c_seq.take 2
  let v5 := tableGetD tmm_table term5
  let a := (a.1 + v5.1, a.2 + v5.2)
  let term3 := lastN seq 2 ++ '/' :: lastN c_seq 2
  let v3 := tableGetD tmm_table term3
  let a := (a.1 + v3.1, a.2 + v3.2)
  nn_loop nn_table.pairs seq c_seq (List.range (seq.length - 1)) a

/-- The interior stacking loop of `calculate_dangling_end`: direct lookup,
reversed lookup, then either an error (strict) or a zero contribution
(lenient).  The source message is `Missing data for nearest neighbors '<key>'`. -/
def de_loop (nn_pairs : PairTable) (strict : Bool) (ts tc : List Char) :
    List ℕ → ℚ × ℚ → Except String (ℚ × ℚ)
  | [], acc => .ok acc
  | i :: rest, acc =>
    let neighbors := nbrKey ts tc i
    match nn_pairs.lookup neighbors with
    | some v => de_loop nn_pairs strict ts tc rest (acc.1 + v.1, acc.2 + v.2)
    | none =>
      match nn_pairs.lookup neighbors.reverse with
      | some v => de_loop nn_pairs strict ts tc rest (acc.1 + v.1, acc.2 + v.2)
      | none =>
        if strict then
          .error ("Missing data for nearest neighbors " ++
            String.mk neighbors)
        else de_loop nn_pairs strict ts tc rest (acc.1 + 0, acc.2 + 0)

/-- Step 3 of `calculate_dangling_end`: left-pad the strand indicated by the
sign of the shift with '.' gap markers (`"." * shift + seq`, respectively
`"." * abs(shift) + c_seq`), then right-pad the shorter of the two resulting
strings with '.' so both have equal length (the source's if/elif). -/
def dangle_pad (seq c_seq : List Char) (shift : Int) : List Char × List Char :=
  let tmp_seq := if 0 < shift then List.replicate shift.toNat '.' ++ seq else seq
  let tmp_cseq :=
    if shift < 0 then List.replicate shift.natAbs '.' ++ c_seq else c_seq
  if tmp_cseq.length < tmp_seq.length then
    (tmp_seq, tmp_cseq ++ List.replicate (tmp_seq.length - tmp_cseq.length) '.')
  else if tmp_seq.length < tmp_cseq.length then
    (tmp_seq ++ List.replicate (tmp_cseq.length - tmp_seq.length) '.', tmp_cseq)
  else (tmp_seq, tmp_cseq)

/-- The 5-prime dangling correction of `calculate_dangling_end`: when either
padded strand starts with a gap marker, look up the key
`tmp_seq[:2] + "/" + tmp_cseq[:2]` directly in the dangling-end table (no
reversed-key fallback) and contribute its value, or zero when absent. -/
def dangle_de5 (de_table : PairTable) (p : List Char × List Char) : ℚ × ℚ :=
  if p.1.head? = some '.' ∨ p.2.head? = some '.' then
    (de_table.lookup (p.1.take 2 ++ '/' :: p.2.take 2)).getD (0, 0)
  else (0, 0)

/-- The `tmp_seq, tmp_cseq = tmp_seq[1:], tmp_cseq[1:]` trim performed along
with the 5-prime dangling correction. -/
def dangle_trim5 (p : List Char × List Char) : List Char × List Char :=
  if p.1.head? = some '.' ∨ p.2.head? = some '.' then
    (p.1.drop 1, p.2.drop 1)
  else p

/-- The 3-prime dangling correction of `calculate_dangling_end`: when either
strand ends with a gap marker, look up the key
`tmp_cseq[-2:][::-1] + "/" + tmp_seq[-2:][::-1]` directly in the dangling-end
table (no reversed-key fallback) and contribute its value, or zero when
absent. -/
def dangle_de3 (de_table : PairTable) (p : List Char × List Char) : ℚ × ℚ :=
  if p.1.getLast? = some '.' ∨ p.2.getLast? = some '.' then
    (de_table.lookup
      ((lastN p.2 2).reverse ++ '/' :: (lastN p.1 2).reverse)).getD (0, 0)
  else (0, 0)

/-- The `tmp_seq, tmp_cseq = tmp_seq[:-1], tmp_cseq[:-1]` trim performed
along with the 3-prime dangling correction. -/
def dangle_trim3 (p : List Char × List Char) : List Char × List Char :=
  if p.1.getLast? = some '.' ∨ p.2.getLast? = some '.' then
    (p.1.dropLast, p.2.dropLast)
  else p

/-- The closing part of `calculate_dangling_end`: the initiation seed plus
the interior stacking loop over `range(min(len(tmp_seq), len(tmp_cseq)) - 1)`
on the trimmed aligned strands. -/
def dangle_interior (nn_table : NNTable) (strict : Bool) (seq : List Char)
    (p : List Char × List Char) : Except String (ℚ × ℚ) :=
  de_loop nn_table.pairs strict p.1 p.2
    (List.range (min p.1.length p.2.length - 1))
    (init_thermodynamics nn_table seq none)

/-- Source `calculate_dangling_end(seq, c_seq, nn_table, de_table, strict)`
(notebook cell 14), translated step by step: initiation seed; alignment via
`determine_shift` (propagating its failure); gap-marker padding
(`dangle_pad`); the 5-prime dangling correction (direct key lookup, then
consume the first character of both strands); the 3-prime dangling correction
(key from both strands' last two characters reversed, then consume the last
character); then the interior stacking loop. -/
def calculate_dangling_end (seq c_seq : List Char) (nn_table : NNTable)
    (de_table : PairTable) (strict : Bool) : Except String (ℚ × ℚ) :=
  let a := init_thermodynamics nn_table seq none
  match determine_shift seq c_seq with
  | none => .error "No alignment found between seq and c_seq."
  | some shift =>
    let p0 := dangle_pad seq c_seq shift
    let a1 :=
      if p0.1.head? = some '.' ∨ p0.2.head? = some '.' then
        match de_table.lookup (p0.1.take 2 ++ '/' :: p0.2.take 2) with
        | some v => (a.1 + v.1, a.2 + v.2)
        | none => a
      else a
    let p1 := dangle_trim5 p0
    let a2 :=
      if p1.1.getLast? = some '.' ∨ p1.2.getLast? = some '.' then
        match de_table.lookup
            ((lastN p1.2 2).reverse ++ '/' :: (lastN p1.1 2).reverse) with
        | some v => (a1.1 + v.1, a1.2 + v.2)
        | none => a1
      else a1
    let p2 := dangle_trim3 p1
    de_loop nn_table.pairs strict p2.1 p2.2
      (List.range (min p2.1.length p2.2.length - 1)) a2

/-- Python truthiness of an optional correction-table argument: present and
non-empty. -/
def truthyT (o : Option PairTable) : Bool :=
  match o with
  | none => false
  | some l => !l.isEmpty

/-- The final lines of the engine:
`delta_g = delta_h - (temperature * (delta_s / 1000))` applied to the
dispatch outcome. -/
def derive_dG (t : ℚ) (r : Except String (ℚ × ℚ)) :
    Except String (ℚ × ℚ × ℚ) :=
  match r with
  | .error e => .error e
  | .ok (dh, ds) => .ok (dh, ds, dh - t * (ds / 1000))

/-- The default of the engine's `temperature=310.15` keyword parameter. -/
def default_temperature : ℚ := 310.15

/-- Source `calculate_duplex_thermodynamics` (notebook cell 15).  `none` for
`temperature` models a call that omits the keyword argument, which Python
resolves to the default `310.15`.  The `seq.upper()` call, the auto-generated
complement for Matching mode (Python `if not c_seq`, also true for the empty
string), the required-table checks, the mode dispatch (each non-Matching mode
requires its truthy correction table), and the final delta-G derivation
follow the source line by line. -/
def calculate_duplex_thermodynamics (seq0 : List Char)
    (c_seq0 : Option (List Char)) (temperature : Option ℚ)
    (nn_table0 : Option NNTable)
    (imm_table tmm_table de_dna_table de_rna_table : Option PairTable)
    (calc_type : String) (strict : Bool) : Except String (ℚ × ℚ × ℚ) :=
  match nn_table0 with
  | none => .error "Error: Nearest-neighbor table (nn_table) is required."
  | some nn_table =>
    let seq := upperL seq0
    let t := temperature.getD default_temperature
    if calc_type = "Matching" then
      let c_seq := match c_seq0 with
        | none => complementL seq
        | some l => if l.isEmpty then complementL seq else l
      derive_dG t (.ok (calculate_matching seq c_seq nn_table))
    else
      match c_seq0 with
      | none => .error "Complementary sequence (c_seq) is required."
      | some c_seq =>
        if c_seq.isEmpty then
          .error "Complementary sequence (c_seq) is required."
        else if calc_type = "Internal Mismatch" ∧ truthyT imm_table then
          derive_dG t
            (calculate_internal_mismatch seq c_seq nn_table (imm_table.getD []))
        else if calc_type = "Terminal Mismatch" ∧ truthyT tmm_table then
          derive_dG t
            (.ok (calculate_terminal_mismatch seq c_seq nn_table (tmm_table.getD [])))
        else if calc_type = "Dangling-End DNA" ∧ truthyT de_dna_table then
          derive_dG t
            (calculate_dangling_end seq c_seq nn_table (de_dna_table.getD []) strict)
        else if calc_type = "Dangling-End RNA" ∧ truthyT de_rna_table then
          derive_dG t
            (calculate_dangling_end seq c_seq nn_table (de_rna_table.getD []) strict)
        else .error "Invalid calculation type or missing required table."

/-- The DNA_NN5 table defined in the notebook (cell 6), SantaLucia 1996. -/
def DNA_NN5 : NNTable where
  init := (0, 0)
  init_AT := (0, 0)
  init_GC := (0, 0)
  init_oneGC := (0, -5.9)
  init_allAT := (0, -9.0)
  init_5TA := (0.4, 0)
  sym := (0, -1.4)
  pairs :=
    [("AA/TT".toList, (-8.4, -23.6)), ("AT/TA".toList, (-6.5, -18.8)),
     ("TA/AT".toList, (-6.3, -18.5)), ("CA/GT".toList, (-7.4, -19.3)),
     ("GT/CA".toList, (-8.6, -23.0)), ("CT/GA".toList, (-6.1, -16.1)),
     ("GA/CT".toList, (-7.7, -20.3)), ("CG/GC".toList, (-10.1, -25.5)),
     ("GC/CG".toList, (-11.1, -28.4)), ("GG/CC".toList, (-6.7, -15.6))]

/-- Pair addition on (delta-H, delta-S) values is componentwise. -/
lemma pair_add_def (a b : ℚ × ℚ) : a + b = (a.1 + b.1, a.2 + b.2) := rfl

/-- The stacking loop is the seed plus the list sum of the per-position
`tableGetD` resolutions. -/
lemma nn_loop_eq (t : PairTable) (s c : List Char) :
    ∀ (l : List ℕ) (acc : ℚ × ℚ),
      nn_loop t s c l acc = acc + (l.map fun i => tableGetD t (nbrKey s c i)).sum
  | [], acc => by simp [nn_loop]
  | i :: rest, acc => by
    rw [nn_loop, nn_loop_eq t s c rest]
    simp [pair_add_def, Prod.ext_iff]
    constructor <;> ring

/-- A successful association-list lookup comes from an entry of the list. -/
lemma lookup_mem {t : PairTable} {k : List Char} {v : ℚ × ℚ}
    (h : t.lookup k = some v) : (k, v) ∈ t := by
  induction t with
  | nil => simp [List.lookup] at h
  | cons a rest ih =>
    rw [List.lookup] at h
    by_cases hk : k == a.1
    · simp [hk] at h
      have : k = a.1 := beq_iff_eq.mp hk
      subst this
      subst h
      exact List.mem_cons_self _ _
    · simp [hk] at h
      exact List.mem_cons_of_mem _ (ih h)

/-- When no key of a table carries a value different from the one its
reversal carries, the two-attempt lookup is insensitive to reversing the
key. -/
lemma tableGetD_reverse (t : PairTable)
    (H : ∀ p ∈ t, t.lookup p.1.reverse = none ∨ t.lookup p.1.reverse = some p.2)
    (k : List Char) : tableGetD t k.reverse = tableGetD t k := by
  unfold tableGetD
  rw [List.reverse_reverse]
  cases h1 : t.lookup k with
  | none =>
    cases h2 : t.lookup k.reverse with
    | none => rfl
    | some v => rfl
  | some v =>
    cases h2 : t.lookup k.reverse with
    | none => rfl
    | some w =>
      have hm := lookup_mem h1
      rcases H _ hm with h | h
      · simp only at h
        rw [h] at h2; cases h2
      · simp only at h
        rw [h] at h2
        cases h2
        rfl

/-- First-match semantics of `find?` over an interval of naturals. -/
lemma find?_range'_eq_some (p : ℕ → Bool) :
    ∀ (n a s : ℕ), a ≤ s → s < a + n → p s = true →
      (∀ t, a ≤ t → t < s → p t = false) →
      (List.range' a n).find? p = some s
  | 0, a, s, h1, h2, _, _ => by omega
  | n + 1, a, s, h1, h2, h3, h4 => by
    rw [List.range'_succ]
    rcases Nat.eq_or_lt_of_le h1 with rfl | hlt
    · simp [List.find?, h3]
    · have hpa : p a = false := h4 a (le_refl a) hlt
      simp only [List.find?, hpa]
      exact find?_range'_eq_some p n (a + 1) s hlt (by omega) h3
        (fun t ht1 ht2 => h4 t (by omega) ht2)

/-- No-match semantics of `find?` over `range`. -/
lemma find?_range_eq_none (p : ℕ → Bool) (n : ℕ)
    (h : ∀ t < n, p t = false) : (List.range n).find? p = none := by
  rw [List.find?_eq_none]
  intro x hx
  simp [h x (List.mem_range.mp hx)]

/-- No-match semantics of `find?` over `range'`. -/
lemma find?_range'_eq_none (p : ℕ → Bool) (a n : ℕ)
    (h : ∀ t, a ≤ t → t < a + n → p t = false) :
    (List.range' a n).find? p = none := by
  rw [List.find?_eq_none]
  intro x hx
  rw [List.mem_range'_1] at hx
  simp [h x hx.1 hx.2]

/-- The internal-mismatch loop succeeds with the seed plus the sum of the
resolved contributions when every key resolves. -/
lemma imm_loop_ok (nn : NNTable) (imm : PairTable) (s c : List Char) :
    ∀ (l : List ℕ) (acc : ℚ × ℚ),
      (∀ i ∈ l, imm_resolve nn imm (nbrKey s c i) ≠ none) →
      imm_loop nn imm s c l acc =
        .ok (acc + (l.map fun i => (imm_resolve nn imm (nbrKey s c i)).getD 0).sum)
  | [], acc, _ => by simp [imm_loop]
  | i :: rest, acc, h => by
    cases hr : imm_resolve nn imm (nbrKey s c i) with
    | none => exact absurd hr (h i (List.mem_cons_self _ _))
    | some v =>
      rw [imm_loop]
      simp only [hr]
      rw [imm_loop_ok nn imm s c rest _ (fun j hj => h j (List.mem_cons_of_mem _ hj))]
      simp [hr, pair_add_def, Prod.ext_iff]
      constructor <;> ring

/-- The internal-mismatch loop raises on the first position whose key
resolves to nothing, naming that key. -/
lemma imm_loop_append_err (nn : NNTable) (imm : PairTable) (s c : List Char)
    (i : ℕ) (hi : imm_resolve nn imm (nbrKey s c i) = none) :
    ∀ (l₁ : List ℕ) (l₂ : List ℕ) (acc : ℚ × ℚ),
      (∀ j ∈ l₁, imm_resolve nn imm (nbrKey s c j) ≠ none) →
      imm_loop nn imm s c (l₁ ++ i :: l₂) acc =
        .error ("No data found for " ++ String.mk (nbrKey s c i) ++ ".")
  | [], l₂, acc, _ => by
    rw [List.nil_append, imm_loop]
    simp only [hi]
  | j :: l₁, l₂, acc, h => by
    cases hr : imm_resolve nn imm (nbrKey s c j) with
    | none => exact absurd hr (h j (List.mem_cons_self _ _))
    | some v =>
      rw [List.cons_append, imm_loop]
      simp only [hr]
      exact imm_loop_append_err nn imm s c i hi l₁ l₂ _
        (fun j' hj' => h j' (List.mem_cons_of_mem _ hj'))

/-- Rearrangement used when a constant is folded into a loop accumulator. -/
lemma pair_shift_add (acc d v : ℚ × ℚ) :
    ((acc + d).1 + v.1, (acc + d).2 + v.2) =
      ((acc.1 + v.1, acc.2 + v.2) : ℚ × ℚ) + d := by
  simp [pair_add_def, Prod.ext_iff]
  constructor <;> ring

/-- Variant of `pair_shift_add` for the lenient zero contribution. -/
lemma pair_shift_add0 (acc d : ℚ × ℚ) :
    ((acc + d).1 + 0, (acc + d).2 + 0) =
      ((acc.1 + 0, acc.2 + 0) : ℚ × ℚ) + d := by
  simp [pair_add_def, Prod.ext_iff]

/-- A constant added to the interior-loop accumulator commutes out of the
loop (errors are unaffected). -/
lemma de_loop_map_add (t : PairTable) (strict : Bool) (ts tc : List Char) (d : ℚ × ℚ) :
    ∀ (l : List ℕ) (acc : ℚ × ℚ),
      de_loop t strict ts tc l (acc + d) =
        (de_loop t strict ts tc l acc).map (fun r => r + d)
  | [], acc => by simp [de_loop, Except.map]
  | i :: rest, acc => by
    rw [de_loop, de_loop]
    cases h1 : t.lookup (nbrKey ts tc i) with
    | some v =>
      simp only [h1]
      rw [pair_shift_add, de_loop_map_add t strict ts tc d rest]
    | none =>
      simp only [h1]
      cases h2 : t.lookup (nbrKey ts tc i).reverse with
      | some v =>
        simp only [h2]
        rw [pair_shift_add, de_loop_map_add t strict ts tc d rest]
      | none =>
        simp only [h2]
        cases strict with
        | true => rfl
        | false =>
          simp only [Bool.false_eq_true, if_false]
          rw [pair_shift_add0, de_loop_map_add t false ts tc d rest]

/-- The Initiation Corrector is the sum of its five steps. -/
lemma init_thermodynamics_decomp (nn : NNTable) (seq : List Char)
    (c_seq0 : Option (List Char)) :
    init_thermodynamics nn seq c_seq0 =
      nn.init + init_gc_term nn seq + init_5TA_term nn seq +
        init_terminal_term nn seq +
        init_sym_term nn seq (resolved_cseq seq c_seq0) := by
  cases c_seq0 with
  | none =>
    simp only [init_thermodynamics, init_gc_term, init_5TA_term,
      init_terminal_term, init_sym_term, resolved_cseq]
    split_ifs <;>
      (simp only [pair_add_def, Prod.mk.injEq, Prod.fst_zero, Prod.snd_zero] ;
       constructor <;> ring)
  | some l =>
    simp only [init_thermodynamics, init_gc_term, init_5TA_term,
      init_terminal_term, init_sym_term, resolved_cseq]
    split_ifs <;>
      (simp only [pair_add_def, Prod.mk.injEq, Prod.fst_zero, Prod.snd_zero] ;
       constructor <;> ring)

/-- Unpacking of a successful delta-G derivation. -/
lemma derive_dG_ok (t : ℚ) (r : Except String (ℚ × ℚ)) (dh ds dg : ℚ)
    (h : derive_dG t r = .ok (dh, ds, dg)) : dg = dh - t * (ds / 1000) := by
  unfold derive_dG at h
  cases r with
  | error e => cases h
  | ok p =>
    obtain ⟨a, b⟩ := p
    simp only [Except.ok.injEq, Prod.mk.injEq] at h
    obtain ⟨rfl, rfl, rfl⟩ := h
    rfl

/-- C1: for every calculation mode and every valid input, the triple
(dH, dS, dG) returned by `calculate_duplex_thermodynamics` satisfies
dG = dH - temperature * (dS / 1000), with the supplied temperature in
kelvin. -/
theorem engine_free_energy_formula (seq0 : List Char)
    (c_seq0 : Option (List Char)) (T : ℚ) (nn0 : Option NNTable)
    (imm tmm dd dr : Option PairTable) (ct : String) (st : Bool)
    (dh ds dg : ℚ)
    (h : calculate_duplex_thermodynamics seq0 c_seq0 (some T) nn0
      imm tmm dd dr ct st = .ok (dh, ds, dg)) :
    dg = dh - T * (ds / 1000) := by
  cases nn0 with
  | none =>
    simp only [calculate_duplex_thermodynamics] at h
    cases h
  | some nnt =>
    simp only [calculate_duplex_thermodynamics, Option.getD_some] at h
    repeat' split at h
    all_goals first
      | exact derive_dG_ok _ _ _ _ _ h
      | cases h

/-- C1 witness: the formula instantiated on the end-to-end Matching run
GCGC at 310.15 K with the DNA_NN5 table. -/
theorem engine_free_energy_formula_witness :
    (calculate_duplex_thermodynamics ("GCGC".toList) none (some 310.15)
        (some DNA_NN5) none none none none "Matching" true =
      .ok (-323/10, -448/5, -28191/6250)) ∧
    ((-28191/6250 : ℚ) = -323/10 - (310.15 : ℚ) * ((-448/5) / 1000)) := by
  have he : calculate_duplex_thermodynamics ("GCGC".toList) none (some 310.15)
      (some DNA_NN5) none none none none "Matching" true =
      .ok (-323/10, -448/5, -28191/6250) := by
    simp [calculate_duplex_thermodynamics, calculate_matching, nn_loop,
      tableGetD, nbrKey, init_thermodynamics, complementL, complementChar,
      DNA_NN5, List.lookup, List.range_succ, upperL, derive_dG,
      default_temperature]
    norm_num
  exact ⟨he, engine_free_energy_formula ("GCGC".toList) none 310.15
    (some DNA_NN5) none none none none "Matching" true
    (-323/10) (-448/5) (-28191/6250) he⟩

/-- The first scan wins: `determine_shift` returns the smallest non-negative
matching shift. -/
lemma determine_shift_pos (seq0 c_seq0 : List Char) (s : ℕ)
    (hs : s < max (complementL (upperL c_seq0)).length (upperL seq0).length)
    (hm : posShiftMatches (upperL seq0) (complementL (upperL c_seq0)) s = true)
    (hmin : ∀ t < s,
      posShiftMatches (upperL seq0) (complementL (upperL c_seq0)) t = false) :
    determine_shift seq0 c_seq0 = some (s : Int) := by
  have hf : (List.range
      (max (complementL (upperL c_seq0)).length (upperL seq0).length)).find?
      (posShiftMatches (upperL seq0) (complementL (upperL c_seq0))) = some s := by
    rw [List.range_eq_range']
    exact find?_range'_eq_some _ _ 0 s (Nat.zero_le s) (by omega) hm
      (fun t _ ht => hmin t ht)
  simp only [determine_shift, hf]

/-- The second scan runs only when the first is exhausted, and returns the
negation of the smallest matching left shift. -/
lemma determine_shift_neg (seq0 c_seq0 : List Char) (s : ℕ)
    (hnone : ∀ t < max (complementL (upperL c_seq0)).length (upperL seq0).length,
      posShiftMatches (upperL seq0) (complementL (upperL c_seq0)) t = false)
    (h1 : 1 ≤ s) (h2 : s < (upperL seq0).length)
    (hm : negShiftMatches (upperL seq0) (complementL (upperL c_seq0)) s = true)
    (hmin : ∀ t < s, 1 ≤ t →
      negShiftMatches (upperL seq0) (complementL (upperL c_seq0)) t = false) :
    determine_shift seq0 c_seq0 = some (-(s : Int)) := by
  have hf1 : (List.range
      (max (complementL (upperL c_seq0)).length (upperL seq0).length)).find?
      (posShiftMatches (upperL seq0) (complementL (upperL c_seq0))) = none :=
    find?_range_eq_none _ _ hnone
  have hf2 : (List.range' 1 ((upperL seq0).length - 1)).find?
      (negShiftMatches (upperL seq0) (complementL (upperL c_seq0))) = some s :=
    find?_range'_eq_some _ _ 1 s h1 (by omega) hm
      (fun t ht1 ht2 => hmin t ht2 ht1)
  simp only [determine_shift, hf1, hf2]

/-- C2: `determine_shift` scans non-negative shifts first (up to
`max(len(comp), len(seq))`, first match wins), falls back to negative shifts
`-1 .. -(len(seq) - 1)` only when no non-negative shift matches, returns the
starting offset of a uniquely-occurring contiguous substring, and resolves
the directly complementary pair ATCG / TAGC to shift 0. -/
theorem determine_shift_scan_order :
    (∀ (seq0 c_seq0 : List Char) (s : ℕ),
      s < max (complementL (upperL c_seq0)).length (upperL seq0).length →
      posShiftMatches (upperL seq0) (complementL (upperL c_seq0)) s = true →
      (∀ t < s,
        posShiftMatches (upperL seq0) (complementL (upperL c_seq0)) t = false) →
      determine_shift seq0 c_seq0 = some (s : Int)) ∧
    (∀ (seq0 c_seq0 : List Char) (s : ℕ),
      (∀ t < max (complementL (upperL c_seq0)).length (upperL seq0).length,
        posShiftMatches (upperL seq0) (complementL (upperL c_seq0)) t = false) →
      1 ≤ s → s < (upperL seq0).length →
      negShiftMatches (upperL seq0) (complementL (upperL c_seq0)) s = true →
      (∀ t < s, 1 ≤ t →
        negShiftMatches (upperL seq0) (complementL (upperL c_seq0)) t = false) →
      determine_shift seq0 c_seq0 = some (-(s : Int))) ∧
    (∀ (seq0 c_seq0 : List Char) (s : ℕ),
      upperL seq0 ≠ [] →
      s + (upperL seq0).length ≤ (complementL (upperL c_seq0)).length →
      upperL seq0 =
        ((complementL (upperL c_seq0)).drop s).take (upperL seq0).length →
      (∀ t < (complementL (upperL c_seq0)).length,
        t + (upperL seq0).length ≤ (complementL (upperL c_seq0)).length →
        t ≠ s →
        upperL seq0 ≠
          ((complementL (upperL c_seq0)).drop t).take (upperL seq0).length) →
      determine_shift seq0 c_seq0 = some (s : Int)) ∧
    determine_shift ("ATCG".toList) ("TAGC".toList) = some 0 := by
  refine ⟨determine_shift_pos, determine_shift_neg, ?_, by decide⟩
  intro seq0 c_seq0 s hne hfit hsub huniq
  have hlen : 0 < (upperL seq0).length := List.length_pos.mpr hne
  apply determine_shift_pos seq0 c_seq0 s
  · omega
  · unfold posShiftMatches
    have hov : min (upperL seq0).length
        ((complementL (upperL c_seq0)).length - s) = (upperL seq0).length := by
      omega
    rw [hov]
    simp only [Bool.and_eq_true, decide_eq_true_eq]
    exact ⟨hlen, by rw [List.take_length]; exact hsub⟩
  · intro t ht
    unfold posShiftMatches
    have hov : min (upperL seq0).length
        ((complementL (upperL c_seq0)).length - t) = (upperL seq0).length := by
      omega
    rw [hov]
    simp only [Bool.and_eq_false_iff, decide_eq_false_iff_not]
    right
    rw [List.take_length]
    exact huniq t (by omega) (by omega) (by omega)

/-- C2 witness: the primary strand ATCG occurs at offset 1 inside the
complement CATCGT of GTAGCA, and `determine_shift` returns 1. -/
theorem determine_shift_scan_order_witness :
    determine_shift ("ATCG".toList) ("GTAGCA".toList) = some 1 :=
  determine_shift_scan_order.2.2.1 ("ATCG".toList) ("GTAGCA".toList) 1
    (by decide) (by decide) (by decide) (by decide)

/-- C3: when no shift in either scan direction produces a matching overlap,
`determine_shift` fails with the alignment error (returns no offset), and the
failure is fatal to `calculate_dangling_end` for that strand pair. -/
theorem no_alignment_error_propagates (seq0 c_seq0 : List Char)
    (nn : NNTable) (de : PairTable) (strict : Bool)
    (hpos : ∀ t < max (complementL (upperL c_seq0)).length (upperL seq0).length,
      posShiftMatches (upperL seq0) (complementL (upperL c_seq0)) t = false)
    (hneg : ∀ t < (upperL seq0).length, 1 ≤ t →
      negShiftMatches (upperL seq0) (complementL (upperL c_seq0)) t = false) :
    determine_shift seq0 c_seq0 = none ∧
    calculate_dangling_end seq0 c_seq0 nn de strict =
      .error "No alignment found between seq and c_seq." := by
  have hf1 : (List.range
      (max (complementL (upperL c_seq0)).length (upperL seq0).length)).find?
      (posShiftMatches (upperL seq0) (complementL (upperL c_seq0))) = none :=
    find?_range_eq_none _ _ hpos
  have hf2 : (List.range' 1 ((upperL seq0).length - 1)).find?
      (negShiftMatches (upperL seq0) (complementL (upperL c_seq0))) = none :=
    find?_range'_eq_none _ _ _ (fun t ht1 ht2 => hneg t (by omega) ht1)
  have hshift : determine_shift seq0 c_seq0 = none := by
    simp only [determine_shift, hf1, hf2]
  exact ⟨hshift, by simp only [calculate_dangling_end, hshift]⟩

/-- C3 witness: the pair AA / AA (complement TT) admits no registration in
either direction, so the shift search and the dangling-end computation for
it both fail. -/
theorem no_alignment_error_propagates_witness :
    determine_shift ("AA".toList) ("AA".toList) = none ∧
    calculate_dangling_end ("AA".toList) ("AA".toList) DNA_NN5 [] true =
      .error "No alignment found between seq and c_seq." :=
  no_alignment_error_propagates ("AA".toList) ("AA".toList) DNA_NN5 [] true
    (by decide) (by decide)

/-- C4: in Internal Mismatch mode every adjacent-pair key is resolved by the
four lookups in source order (mismatch direct, mismatch reversed, base
direct, base reversed); when every key resolves the loop succeeds with the
seed plus the sum of resolutions, and a key absent from all four lookups
makes the computation fail with an error naming that key instead of
contributing zero. -/
theorem internal_mismatch_strict_lookup :
    (∀ (nn : NNTable) (imm : PairTable) (k : List Char),
      imm_resolve nn imm k =
        (imm.lookup k).orElse (fun _ =>
          (imm.lookup k.reverse).orElse (fun _ =>
            (nn.pairs.lookup k).orElse (fun _ => nn.pairs.lookup k.reverse)))) ∧
    (∀ (seq c_seq : List Char) (nn : NNTable) (imm : PairTable),
      (∀ i < seq.length - 1, imm_resolve nn imm (nbrKey seq c_seq i) ≠ none) →
      calculate_internal_mismatch seq c_seq nn imm =
        .ok (init_thermodynamics nn seq none +
          ((List.range (seq.length - 1)).map
            (fun i => (imm_resolve nn imm (nbrKey seq c_seq i)).getD 0)).sum)) ∧
    (∀ (seq c_seq : List Char) (nn : NNTable) (imm : PairTable) (i : ℕ),
      i < seq.length - 1 →
      (∀ j < i, imm_resolve nn imm (nbrKey seq c_seq j) ≠ none) →
      imm.lookup (nbrKey seq c_seq i) = none →
      imm.lookup (nbrKey seq c_seq i).reverse = none →
      nn.pairs.lookup (nbrKey seq c_seq i) = none →
      nn.pairs.lookup (nbrKey seq c_seq i).reverse = none →
      calculate_internal_mismatch seq c_seq nn imm =
        .error ("No data found for " ++ String.mk (nbrKey seq c_seq i) ++ ".")) := by
  refine ⟨?_, ?_, ?_⟩
  · intro nn imm k
    unfold imm_resolve
    cases imm.lookup k with
    | some v => rfl
    | none =>
      cases imm.lookup k.reverse with
      | some v => rfl
      | none =>
        cases nn.pairs.lookup k with
        | some v => rfl
        | none => rfl
  · intro seq c_seq nn imm h
    unfold calculate_internal_mismatch
    exact imm_loop_ok nn imm seq c_seq _ _
      (fun i hi => h i (List.mem_range.mp hi))
  · intro seq c_seq nn imm i hi hbefore l1 l2 l3 l4
    have hres : imm_resolve nn imm (nbrKey seq c_seq i) = none := by
      unfold imm_resolve
      rw [l1, l2, l3, l4]
    have hdecomp : List.range (seq.length - 1) =
        List.range' 0 i ++ i :: List.range' (i + 1) (seq.length - 1 - i - 1) := by
      rw [List.range_eq_range']
      have h1 : List.range' 0 i ++ List.range' (0 + 1 * i) (seq.length - 1 - i) =
          List.range' 0 ((seq.length - 1 - i) + i) :=
        List.range'_append 0 i (seq.length - 1 - i) 1
      rw [show (seq.length - 1 - i) + i = seq.length - 1 by omega] at h1
      rw [← h1]
      congr 1
      rw [show 0 + 1 * i = i by omega,
        show seq.length - 1 - i = (seq.length - 1 - i - 1) + 1 by omega,
        List.range'_succ]
      rw [show i + 1 * 1 = i + 1 by omega]
      congr 2
    unfold calculate_internal_mismatch
    rw [hdecomp]
    exact imm_loop_append_err nn imm seq c_seq i hres _ _ _
      (fun j hj => hbefore j (by
        have := List.mem_range'_1.mp hj
        omega))

/-- C4 witness: with an empty mismatch table and the DNA_NN5 base table, the
key AG/TT (and its reversal) is absent from all four lookups, and Internal
Mismatch mode fails naming that key. -/
theorem internal_mismatch_strict_lookup_witness :
    calculate_internal_mismatch ("AG".toList) ("TT".toList) DNA_NN5 [] =
      .error ("No data found for " ++
        String.mk (nbrKey ("AG".toList) ("TT".toList) 0) ++ ".") :=
  internal_mismatch_strict_lookup.2.2 ("AG".toList) ("TT".toList) DNA_NN5 [] 0
    (by decide) (by decide) (by decide) (by decide) (by decide) (by decide)

/-- C5: the symmetry correction is added exactly once when the initiation
condition holds and zero times otherwise; with a supplied complementary
strand the condition is seq = reverse(c_seq), and with the auto-generated
complement (which is what every mode variant passes, since they all call the
initiation step without a c_seq) it is the self-complementarity condition
seq = reverse(complement(seq)), independent of the supplied strand. -/
theorem symmetry_correction_once :
    (∀ (nn : NNTable) (seq c : List Char), ¬ c.isEmpty →
      init_thermodynamics nn seq (some c) =
        (nn.init + init_gc_term nn seq + init_5TA_term nn seq +
          init_terminal_term nn seq) +
          (if seq = c.reverse then nn.sym else 0)) ∧
    (∀ (nn : NNTable) (seq : List Char),
      init_thermodynamics nn seq none =
        (nn.init + init_gc_term nn seq + init_5TA_term nn seq +
          init_terminal_term nn seq) +
          (if seq = (complementL seq).reverse then nn.sym else 0)) ∧
    (∀ (nn : NNTable) (seq c_seq : List Char),
      calculate_matching seq c_seq nn =
        init_thermodynamics nn seq none +
          ((List.range (seq.length - 1)).map
            (fun i => tableGetD nn.pairs (nbrKey seq c_seq i))).sum) := by
  refine ⟨?_, ?_, ?_⟩
  · intro nn seq c hc
    rw [init_thermodynamics_decomp]
    have hres : resolved_cseq seq (some c) = c := by
      simp only [resolved_cseq]
      rw [if_neg hc]
    rw [hres]
    rfl
  · intro nn seq
    rw [init_thermodynamics_decomp]
    rfl
  · intro nn seq c_seq
    unfold calculate_matching
    exact nn_loop_eq nn.pairs seq c_seq _ _

/-- C5 witness: AT with supplied complement TA is self-complementary and
receives the symmetry term once. -/
theorem symmetry_correction_once_witness :
    ¬ ("TA".toList).isEmpty = true ∧
    init_thermodynamics DNA_NN5 ("AT".toList) (some ("TA".toList)) =
      (DNA_NN5.init + init_gc_term DNA_NN5 ("AT".toList) +
        init_5TA_term DNA_NN5 ("AT".toList) +
        init_terminal_term DNA_NN5 ("AT".toList)) +
        (if ("AT".toList) = ("TA".toList).reverse then DNA_NN5.sym else 0) :=
  ⟨by decide, symmetry_correction_once.1 DNA_NN5 ("AT".toList) ("TA".toList)
    (by decide)⟩

/-- C6: the Initiation Corrector adds the 5-prime-T / 3-prime-A penalty term
once if seq begins with T and once more (the same table entry) if seq ends
with A; the two conditions are independent and additive, so a sequence
satisfying both receives the term exactly twice. -/
theorem terminal_5T_3A_penalty_twice :
    (∀ (nn : NNTable) (seq : List Char) (c_seq0 : Option (List Char)),
      init_thermodynamics nn seq c_seq0 =
        (nn.init + init_gc_term nn seq + init_terminal_term nn seq +
          init_sym_term nn seq (resolved_cseq seq c_seq0)) +
          ((if seq.head? = some 'T' then nn.init_5TA else 0) +
            (if seq.getLast? = some 'A' then nn.init_5TA else 0))) ∧
    (∀ (nn : NNTable) (seq : List Char),
      seq.head? = some 'T' → seq.getLast? = some 'A' →
      (if seq.head? = some 'T' then nn.init_5TA else 0) +
        (if seq.getLast? = some 'A' then nn.init_5TA else 0) =
        nn.init_5TA + nn.init_5TA) := by
  constructor
  · intro nn seq c_seq0
    rw [init_thermodynamics_decomp]
    unfold init_5TA_term
    abel
  · intro nn seq h1 h2
    rw [if_pos h1, if_pos h2]

/-- C6 witness: TA begins with T and ends with A, so the penalty is applied
exactly twice. -/
theorem terminal_5T_3A_penalty_twice_witness :
    ("TA".toList).head? = some 'T' ∧ ("TA".toList).getLast? = some 'A' ∧
    ((if ("TA".toList).head? = some 'T' then DNA_NN5.init_5TA else 0) +
      (if ("TA".toList).getLast? = some 'A' then DNA_NN5.init_5TA else 0) =
      DNA_NN5.init_5TA + DNA_NN5.init_5TA) :=
  ⟨by decide, by decide,
    terminal_5T_3A_penalty_twice.2 DNA_NN5 ("TA".toList) (by decide) (by decide)⟩

/-- Two-character slices of a reversed strand are reversed slices of the
strand, read from the mirrored position. -/
lemma slice2_reverse (l : List Char) (i : ℕ) (h : i + 2 ≤ l.length) :
    (l.reverse.drop i).take 2 = ((l.drop (l.length - 2 - i)).take 2).reverse := by
  apply List.ext_getElem
  · simp; omega
  · intro j hj1 hj2
    simp only [List.getElem_take, List.getElem_drop, List.getElem_reverse]
    simp only [List.length_take, List.length_drop, List.length_reverse] at hj1 hj2 ⊢
    congr 1
    omega

/-- Reversing both strands and swapping their roles turns each neighbor key
into the whole-string reversal of the mirrored key. -/
lemma nbrKey_reverse_swap (s c : List Char) (i : ℕ)
    (hlen : s.length = c.length) (hi : i + 2 ≤ s.length) :
    nbrKey c.reverse s.reverse i = (nbrKey s c (s.length - 2 - i)).reverse := by
  unfold nbrKey
  rw [slice2_reverse c i (by omega), slice2_reverse s i (by omega)]
  rw [show c.length - 2 - i = s.length - 2 - i by omega]
  simp

/-- C7: whenever a pair key is absent the accumulator also tries the fully
reversed key before treating the lookup as missing; and over a table whose
keys never disagree with their reversals, the stacking loop is invariant
under simultaneously reversing both strands and swapping strand roles. -/
theorem stacking_lookup_undirected :
    (∀ (t : PairTable) (k : List Char),
      t.lookup k = none → tableGetD t k = (t.lookup k.reverse).getD (0, 0)) ∧
    (∀ (t : PairTable) (seq c_seq : List Char) (acc : ℚ × ℚ),
      seq.length = c_seq.length →
      (∀ p ∈ t, t.lookup p.1.reverse = none ∨ t.lookup p.1.reverse = some p.2) →
      nn_loop t seq c_seq (List.range (seq.length - 1)) acc =
        nn_loop t c_seq.reverse seq.reverse
          (List.range (c_seq.reverse.length - 1)) acc) := by
  constructor
  · intro t k h
    unfold tableGetD
    rw [h]
    cases t.lookup k.reverse with
    | none => rfl
    | some v => rfl
  · intro t seq c_seq acc hlen H
    rw [nn_loop_eq, nn_loop_eq]
    congr 1
    have hlen2 : c_seq.reverse.length - 1 = seq.length - 1 := by
      rw [List.length_reverse]; omega
    rw [hlen2]
    have hsum : ∀ (f : ℕ → ℚ × ℚ) (n : ℕ),
        ((List.range n).map f).sum = ∑ j in Finset.range n, f j := fun f n => rfl
    rw [hsum, hsum]
    rw [← Finset.sum_range_reflect
      (fun j => tableGetD t (nbrKey seq c_seq j)) (seq.length - 1)]
    apply Finset.sum_congr rfl
    intro j hj
    rw [Finset.mem_range] at hj
    rw [nbrKey_reverse_swap seq c_seq j hlen (by omega)]
    rw [show seq.length - 2 - j = seq.length - 1 - 1 - j by omega]
    exact (tableGetD_reverse t H _).symm

/-- C7 witness: the invariance instantiated on the AT / TA duplex over a
one-entry pair table whose single key is its own reversal. -/
theorem stacking_lookup_undirected_witness :
    ("AT".toList).length = ("TA".toList).length ∧
    nn_loop [(("AT/TA".toList : List Char), ((3 : ℚ), (4 : ℚ)))]
        ("AT".toList) ("TA".toList) (List.range (("AT".toList).length - 1)) 0 =
      nn_loop [(("AT/TA".toList : List Char), ((3 : ℚ), (4 : ℚ)))]
        ("TA".toList).reverse ("AT".toList).reverse
        (List.range ((("TA".toList).reverse).length - 1)) 0 :=
  ⟨by decide, stacking_lookup_undirected.2
    [(("AT/TA".toList : List Char), ((3 : ℚ), (4 : ℚ)))] ("AT".toList)
    ("TA".toList) 0 (by decide)
    (by
      intro p hp
      rw [List.mem_singleton] at hp
      subst hp
      right
      rfl)⟩

/-- C8 counterexample: the core performs no U-to-T normalization (a U in the
primary strand reaches the table lookups as U: the Matching run on AU misses
every stacking entry and differs from the run on AT), and the supplied
complementary strand is not uppercased by the core (the run with c_seq "ta"
differs from the run with "TA").  If the claimed normalizations happened
before any table lookup, both pairs of runs would be equal. -/
theorem normalization_counterexample :
    (calculate_duplex_thermodynamics ("AU".toList) none (some 310.15)
        (some DNA_NN5) none none none none "Matching" true ≠
      calculate_duplex_thermodynamics ("AT".toList) none (some 310.15)
        (some DNA_NN5) none none none none "Matching" true) ∧
    (calculate_duplex_thermodynamics ("AT".toList) (some ("ta".toList))
        (some 310.15) (some DNA_NN5) none none none none "Matching" true ≠
      calculate_duplex_thermodynamics ("AT".toList) (some ("TA".toList))
        (some 310.15) (some DNA_NN5) none none none none "Matching" true) := by
  have h1 : calculate_duplex_thermodynamics ("AU".toList) none (some 310.15)
      (some DNA_NN5) none none none none "Matching" true =
      .ok (0, -9, 55827/20000) := by
    simp [calculate_duplex_thermodynamics, calculate_matching, nn_loop,
      tableGetD, nbrKey, init_thermodynamics, complementL, complementChar,
      DNA_NN5, List.lookup, List.range_succ, upperL, derive_dG,
      default_temperature]
    norm_num
  have h2 : calculate_duplex_thermodynamics ("AT".toList) none (some 310.15)
      (some DNA_NN5) none none none none "Matching" true =
      .ok (-13/2, -146/5, 127819/50000) := by
    simp [calculate_duplex_thermodynamics, calculate_matching, nn_loop,
      tableGetD, nbrKey, init_thermodynamics, complementL, complementChar,
      DNA_NN5, List.lookup, List.range_succ, upperL, derive_dG,
      default_temperature]
    norm_num
  have h3 : calculate_duplex_thermodynamics ("AT".toList) (some ("ta".toList))
      (some 310.15) (some DNA_NN5) none none none none "Matching" true =
      .ok (0, -52/5, 80639/25000) := by
    simp [calculate_duplex_thermodynamics, calculate_matching, nn_loop,
      tableGetD, nbrKey, init_thermodynamics, complementL, complementChar,
      DNA_NN5, List.lookup, List.range_succ, upperL, derive_dG,
      default_temperature]
    norm_num
  have h4 : calculate_duplex_thermodynamics ("AT".toList) (some ("TA".toList))
      (some 310.15) (some DNA_NN5) none none none none "Matching" true =
      .ok (-13/2, -146/5, 127819/50000) := by
    simp [calculate_duplex_thermodynamics, calculate_matching, nn_loop,
      tableGetD, nbrKey, init_thermodynamics, complementL, complementChar,
      DNA_NN5, List.lookup, List.range_succ, upperL, derive_dG,
      default_temperature]
    norm_num
  constructor
  · rw [h1, h2]
    simp only [ne_eq, Except.ok.injEq, Prod.mk.injEq, not_and]
    intro h
    norm_num at h
  · rw [h3, h4]
    simp only [ne_eq, Except.ok.injEq, Prod.mk.injEq, not_and]
    intro h
    norm_num at h

/-- C8 amended: the engine depends on the primary sequence only through its
uppercased form (case-insensitive in seq, which is uppercased before core
processing), and the alignment resolver depends on both strands only through
their uppercased forms; no U-to-T conversion is performed by the core, and
the supplied complementary strand is uppercased only inside the alignment
resolver, not before the mode computations. -/
theorem normalization_amended :
    (∀ (seq seq' : List Char) (c : Option (List Char)) (t : Option ℚ)
        (nn : Option NNTable) (imm tmm dd dr : Option PairTable)
        (ct : String) (st : Bool),
      upperL seq = upperL seq' →
      calculate_duplex_thermodynamics seq c t nn imm tmm dd dr ct st =
        calculate_duplex_thermodynamics seq' c t nn imm tmm dd dr ct st) ∧
    (∀ (s s' c c' : List Char),
      upperL s = upperL s' → upperL c = upperL c' →
      determine_shift s c = determine_shift s' c') := by
  constructor
  · intro seq seq' c t nn imm tmm dd dr ct st h
    cases nn with
    | none => rfl
    | some nnt =>
      simp only [calculate_duplex_thermodynamics]
      rw [h]
  · intro s s' c c' h1 h2
    simp only [determine_shift]
    rw [h1, h2]

/-- C8 amended witness: the engine treats the lowercase primary strand at
like AT. -/
theorem normalization_amended_witness :
    upperL ("at".toList) = upperL ("AT".toList) ∧
    calculate_duplex_thermodynamics ("at".toList) none (some 310.15)
        (some DNA_NN5) none none none none "Matching" true =
      calculate_duplex_thermodynamics ("AT".toList) none (some 310.15)
        (some DNA_NN5) none none none none "Matching" true :=
  ⟨by decide, normalization_amended.1 ("at".toList) ("AT".toList) none
    (some 310.15) (some DNA_NN5) none none none none "Matching" true
    (by decide)⟩

/-- C9 counterexample: an evaluation proceeds with an engine-chosen
temperature.  A Matching call that omits the temperature argument succeeds,
and its free energy is derived at the engine default of 310.15 K, refuting
the claim that no evaluation can proceed without a caller-supplied
temperature. -/
theorem default_temperature_counterexample :
    calculate_duplex_thermodynamics ("AT".toList) none none (some DNA_NN5)
        none none none none "Matching" true =
      .ok (-13/2, -146/5, 127819/50000) ∧
    default_temperature = 310.15 ∧
    (127819/50000 : ℚ) = -13/2 - (310.15 : ℚ) * ((-146/5) / 1000) := by
  refine ⟨?_, by norm_num [default_temperature], by norm_num⟩
  simp [calculate_duplex_thermodynamics, calculate_matching, nn_loop,
    tableGetD, nbrKey, init_thermodynamics, complementL, complementChar,
    DNA_NN5, List.lookup, List.range_succ, upperL, derive_dG,
    default_temperature]
  norm_num

/-- C9 amended: the engine has a default temperature of 310.15 K: a call
that omits the temperature behaves exactly like a call that supplies
310.15. -/
theorem default_temperature_amended :
    ∀ (seq : List Char) (c : Option (List Char)) (nn : Option NNTable)
      (imm tmm dd dr : Option PairTable) (ct : String) (st : Bool),
      calculate_duplex_thermodynamics seq c none nn imm tmm dd dr ct st =
        calculate_duplex_thermodynamics seq c (some default_temperature) nn
          imm tmm dd dr ct st := by
  intro seq c nn imm tmm dd dr ct st
  cases nn with
  | none => rfl
  | some nnt => rfl

/-- Closing step shared by the C10 branches: folding a constant into the
interior-loop seed is the same as mapping it over the loop result. -/
lemma de_loop_seed_eq (np : PairTable) (strict : Bool) (X Y : List Char)
    (l : List ℕ) (acc a d : ℚ × ℚ) (e : acc = a + d) :
    de_loop np strict X Y l acc = (de_loop np strict X Y l a).map (fun r => r + d) := by
  rw [e]
  exact de_loop_map_add _ _ _ _ _ _ _

/-- C10: in Dangling-End mode the 5-prime and 3-prime dangling corrections
are looked up by the directly constructed key only (`dangle_de5` and
`dangle_de3` contain no reversed-key fallback) and an absent dangling-end key
silently contributes zero regardless of the strict flag, which enters only
the interior stacking loop (`dangle_interior`). -/
theorem dangling_end_direct_key_only (seq c_seq : List Char) (nn : NNTable)
    (de : PairTable) (strict : Bool) (sh : Int)
    (h : determine_shift seq c_seq = some sh) :
    calculate_dangling_end seq c_seq nn de strict =
      (dangle_interior nn strict seq
        (dangle_trim3 (dangle_trim5 (dangle_pad seq c_seq sh)))).map
        (fun r => r + (dangle_de5 de (dangle_pad seq c_seq sh) +
          dangle_de3 de (dangle_trim5 (dangle_pad seq c_seq sh)))) := by
  simp only [calculate_dangling_end, h, dangle_interior, dangle_de5,
    dangle_trim5, dangle_de3, dangle_trim3]
  generalize dangle_pad seq c_seq sh = p
  generalize init_thermodynamics nn seq none = a
  split_ifs with h5 h3 h3'
  · cases hde5 : de.lookup (p.1.take 2 ++ '/' :: p.2.take 2) with
    | some v =>
      simp only [hde5, Option.getD_some]
      cases hde3 : de.lookup ((lastN (p.2.drop 1) 2).reverse ++ '/' ::
          (lastN (p.1.drop 1) 2).reverse) with
      | some w =>
        simp only [hde3, Option.getD_some]
        apply de_loop_seed_eq
        first
        | (simp only [pair_add_def, Prod.mk.injEq]
           constructor <;> ring)
        | simp
      | none =>
        simp only [hde3, Option.getD_none]
        apply de_loop_seed_eq
        first
        | (simp only [pair_add_def, Prod.mk.injEq]
           constructor <;> ring)
        | simp
    | none =>
      simp only [hde5, Option.getD_none]
      cases hde3 : de.lookup ((lastN (p.2.drop 1) 2).reverse ++ '/' ::
          (lastN (p.1.drop 1) 2).reverse) with
      | some w =>
        simp only [hde3, Option.getD_some]
        apply de_loop_seed_eq
        first
        | (simp only [pair_add_def, Prod.mk.injEq]
           constructor <;> ring)
        | simp
      | none =>
        simp only [hde3, Option.getD_none]
        apply de_loop_seed_eq
        first
        | (simp only [pair_add_def, Prod.mk.injEq]
           constructor <;> ring)
        | simp
  · cases hde5 : de.lookup (p.1.take 2 ++ '/' :: p.2.take 2) with
    | some v =>
      simp only [hde5, Option.getD_some]
      apply de_loop_seed_eq
      first
      | (simp only [pair_add_def, Prod.mk.injEq]
         constructor <;> ring)
      | simp
    | none =>
      simp only [hde5, Option.getD_none]
      apply de_loop_seed_eq
      first
      | (simp only [pair_add_def, Prod.mk.injEq]
         constructor <;> ring)
      | simp
  · cases hde3 : de.lookup ((lastN p.2 2).reverse ++ '/' ::
        (lastN p.1 2).reverse) with
    | some w =>
      simp only [hde3, Option.getD_some]
      apply de_loop_seed_eq
      first
      | (simp only [pair_add_def, Prod.mk.injEq]
         constructor <;> ring)
      | simp
    | none =>
      simp only [hde3, Option.getD_none]
      apply de_loop_seed_eq
      first
      | (simp only [pair_add_def, Prod.mk.injEq]
         constructor <;> ring)
      | simp
  · apply de_loop_seed_eq
    first
    | (simp only [pair_add_def, Prod.mk.injEq]
       constructor <;> ring)
    | simp

/-- C10 witness: the factorization instantiated on the pair T / TA (shift 1,
5-prime dangling end with key .T/TA present in the table, strict mode). -/
theorem dangling_end_direct_key_only_witness :
    determine_shift ("T".toList) ("TA".toList) = some 1 ∧
    calculate_dangling_end ("T".toList) ("TA".toList) DNA_NN5
        [((".T/TA".toList : List Char), ((1 : ℚ), (2 : ℚ)))] true =
      (dangle_interior DNA_NN5 true ("T".toList)
        (dangle_trim3 (dangle_trim5 (dangle_pad ("T".toList) ("TA".toList) 1)))).map
        (fun r => r + (dangle_de5 [((".T/TA".toList : List Char), ((1 : ℚ), (2 : ℚ)))]
            (dangle_pad ("T".toList) ("TA".toList) 1) +
          dangle_de3 [((".T/TA".toList : List Char), ((1 : ℚ), (2 : ℚ)))]
            (dangle_trim5 (dangle_pad ("T".toList) ("TA".toList) 1)))) :=
  ⟨by decide, dangling_end_direct_key_only ("T".toList) ("TA".toList) DNA_NN5
    [((".T/TA".toList : List Char), ((1 : ℚ), (2 : ℚ)))] true 1 (by decide)⟩
